import Mathlib

/-!
# CuteViewer: window registry, recent files and close policy

A shallow embedding of `src/application.cpp` and `src/mainwindow.cpp`.

* `QSettings` is the persistent key/value store every `QSettings s;` object opens.
* `MainWindow` holds the fields of one window that the code reads or writes.
* `Application` state is the pointer list `_windows`; a pointer is a `handle`.
* Answers of the user (message box, file dialogs) and of the file system
  (`QFileInfo`, the PDF document) are inputs of the functions that ask for them.
-/

namespace CuteViewer

/-! ## QVariant and QSettings -/

/-- A byte array (`QByteArray`), one number per byte. -/
abbrev QByteArray := List Nat

/-- The values the program stores in `QSettings`: nothing, a byte array or a string list. -/
inductive QVariant where
  | invalid
  | byteArray (b : QByteArray)
  | stringList (l : List String)
deriving DecidableEq, Repr

/-- `QVariant::toByteArray`: the byte array, or an empty one for any other content. -/
def QVariant.toByteArray : QVariant → QByteArray
  | .byteArray b => b
  | _ => []

/-- `QVariant::toStringList`: the string list, or an empty one for any other content. -/
def QVariant.toStringList : QVariant → List String
  | .stringList l => l
  | _ => []

/-- The persistent store behind every `QSettings s;`: a value for each key
(`invalid` for a key never written). -/
abbrev QSettings := String → QVariant

/-- `QSettings::value(key)`. -/
def QSettings.value (s : QSettings) (key : String) : QVariant := s key

/-- `QSettings::setValue(key, v)`: only `key` changes. -/
def QSettings.setValue (s : QSettings) (key : String) (v : QVariant) : QSettings :=
  fun k => if k = key then v else s k

/-- The store of a first run: no key written yet. -/
def QSettings.empty : QSettings := fun _ => QVariant.invalid

/-- The list stored under `recentFiles`, as `addPathToRecentFiles` and the menu read it. -/
def recentFiles (s : QSettings) : List String :=
  (s.value "recentFiles").toStringList

/-! ## Recent files (`MainWindow::addPathToRecentFiles`, mainwindow.cpp 532-542) -/

/-- The list part of `addPathToRecentFiles`: `removeOne(path)` erases the first
occurrence, `prepend(path)` conses, and `removeLast()` runs when `count() > 10`. -/
def touch (recent : List String) (path : String) : List String :=
  let removed := recent.erase path
  let prepended := path :: removed
  if prepended.length > 10 then prepended.dropLast else prepended

/-- `MainWindow::addPathToRecentFiles`: read `recentFiles`, touch, write it back. -/
def addPathToRecentFiles (s : QSettings) (path : String) : QSettings :=
  s.setValue "recentFiles" (QVariant.stringList (touch (recentFiles s) path))

/-- A sequence of `addPathToRecentFiles` calls, first element first. -/
def touchAll (s : QSettings) (paths : List String) : QSettings :=
  paths.foldl addPathToRecentFiles s

/-- What the specification calls the distinct touched paths ordered by their last
touch, most recent first: `List.dedup` keeps the last occurrence of every path in
touch order, and the reversal puts the most recent one first. -/
def distinctByLastTouch (paths : List String) : List String :=
  paths.dedup.reverse

/-! ## Inputs from outside the program -/

/-- The answers of the file system and of the PDF library that the code asks for.
`canonicalFilePath`, `fileName` and `baseName` are the `QFileInfo` functions of
the same names; `documentTitle path` is the `Title` metadata of the document
after `_document->load(path)`. -/
structure Env where
  canonicalFilePath : String → String
  fileName : String → String
  baseName : String → String
  documentTitle : String → String

/-- The answer of `QMessageBox::question` in `exitAfterSaving`: one of the three
buttons offered, or anything else (the `default:` branch). -/
inductive StandardButton where
  | Save
  | No
  | Cancel
  | Other
deriving DecidableEq, Repr

/-- What the user can see happen, in order: `show()`, `activateWindow()` and
`raise()` on the window with the given handle, and the save-changes question. -/
inductive UiEvent where
  | showWindow (handle : Nat)
  | activateWindow (handle : Nat)
  | raise (handle : Nat)
  | question (handle : Nat)
deriving DecidableEq, Repr

/-! ## One window (`MainWindow`, mainwindow.h) -/

/-- The state of a `MainWindow`. `handle` stands for the pointer to the object;
`windowModified`, `windowFilePath` and `windowTitle` are the `QWidget` properties
of these names; `geometry` and `state` are the blobs that `saveGeometry()` and
`saveState()` return and that `restoreGeometry` and `restoreState` set. -/
structure MainWindow where
  handle : Nat
  filePath : String
  zoomRange : Int
  canBeReloaded : Bool
  windowModified : Bool
  windowFilePath : String
  windowTitle : String
  geometry : QByteArray
  state : QByteArray
deriving DecidableEq, Repr

/-- Everything a method of `MainWindow` reads or writes: the window itself, the
settings store and the trace of user-visible events. -/
structure Ctx where
  win : MainWindow
  settings : QSettings
  events : List UiEvent

/-- `MainWindow::setCurrentFilePath` (mainwindow.cpp 369-385). `tr` is the
identity, as `main` installs no translator. -/
def setCurrentFilePath (env : Env) (c : Ctx) (path : String) : Ctx :=
  if path = "" then
    let curFile := "untitled"
    let w1 := { c.win with filePath := "" }
    let w2 := { w1 with windowModified := false }
    { c with win := { w2 with windowFilePath := curFile } }
  else
    let curFile := env.canonicalFilePath path
    let w1 := { c.win with filePath := path }
    let s1 := addPathToRecentFiles c.settings w1.filePath
    let w2 := { w1 with windowModified := false }
    { c with win := { w2 with windowFilePath := curFile }, settings := s1 }

/-- The constructor `MainWindow::MainWindow` (mainwindow.cpp 44-93) for the object
at `handle`: geometry and state are restored from the settings, then
`setCurrentFilePath("")` runs. `loadSettings` and `updateStatusBar` have empty
bodies; the widgets and actions carry no state modelled here. -/
def newMainWindow (env : Env) (handle : Nat) (settings : QSettings)
    (events : List UiEvent) : Ctx :=
  let w0 : MainWindow :=
    { handle := handle, filePath := "", zoomRange := 0, canBeReloaded := true,
      windowModified := false, windowFilePath := "", windowTitle := "",
      geometry := [], state := [] }
  let w1 := { w0 with geometry := (settings.value "geometry").toByteArray }
  let w2 := { w1 with state := (settings.value "myWidget/windowState").toByteArray }
  setCurrentFilePath env { win := w2, settings := settings, events := events } ""

/-- `MainWindow::loadFilePath` (mainwindow.cpp 121-133). -/
def loadFilePath (env : Env) (c : Ctx) (path : String) : Ctx :=
  let documentTitle := env.documentTitle path
  let title := if documentTitle ≠ "" then documentTitle else "PDF Viewer"
  let c1 := { c with win := { c.win with windowTitle := title } }
  setCurrentFilePath env c1 path

/-- `MainWindow::saveFilePath` (mainwindow.cpp 136-144): the write itself is a TODO. -/
def saveFilePath (env : Env) (c : Ctx) (path : String) : Ctx :=
  setCurrentFilePath env c path

/-- `MainWindow::saveFileAs` (mainwindow.cpp 420-435); `chosen` is what
`QFileDialog::getSaveFileName` returns (empty when the dialog is cancelled). -/
def saveFileAs (env : Env) (c : Ctx) (chosen : String) : Ctx :=
  if chosen = "" then c
  else
    let path := if env.fileName chosen = env.baseName chosen then chosen ++ ".txt" else chosen
    saveFilePath env c path

/-- `MainWindow::saveFile` (mainwindow.cpp 409-417). -/
def saveFile (env : Env) (c : Ctx) (chosen : String) : Ctx :=
  if c.win.filePath = "" then saveFileAs env c chosen
  else saveFilePath env c c.win.filePath

/-- `MainWindow::exitAfterSaving` (mainwindow.cpp 147-177); `risp` is the answer to
the question, asked only when the window is modified. -/
def exitAfterSaving (env : Env) (c : Ctx) (risp : StandardButton) (chosen : String) :
    Bool × Ctx :=
  if c.win.windowModified then
    let c1 := { c with events := c.events ++ [UiEvent.question c.win.handle] }
    match risp with
    | .Save => (true, saveFile env c1 chosen)
    | .No => (true, c1)
    | .Cancel => (false, c1)
    | .Other => (true, c1)
  else (true, c)

/-- `MainWindow::closeEvent` (mainwindow.cpp 180-192). The Boolean is `true` for
`event->accept()` and `false` for `event->ignore()`. The call of
`removeWindowFromList` is commented out in the source and so is absent here. -/
def closeEvent (env : Env) (c : Ctx) (risp : StandardButton) (chosen : String) :
    Bool × Ctx :=
  let r := exitAfterSaving env c risp chosen
  if r.1 then
    let s1 := r.2.settings.setValue "geometry" (QVariant.byteArray r.2.win.geometry)
    let s2 := s1.setValue "windowState" (QVariant.byteArray r.2.win.state)
    (true, { r.2 with settings := s2 })
  else (false, r.2)

/-! ## The registry (`Application`, application.cpp) -/

/-- The program state: `windows` is `Application::_windows` (each pointer shown as
the window it points to), `settings` the persistent store, `events` the trace of
user-visible events, `nextHandle` the pointer the next `new MainWindow` returns,
and `closed` the handles of the windows whose close event was accepted (Qt then
hides and, by `WA_DeleteOnClose`, deletes them). -/
structure World where
  windows : List MainWindow
  settings : QSettings
  events : List UiEvent
  nextHandle : Nat
  closed : List Nat

/-- The state at start-up: no window yet. -/
def World.start (settings : QSettings) : World :=
  { windows := [], settings := settings, events := [], nextHandle := 0, closed := [] }

/-- `Application::loadPath` (application.cpp 55-76). `mainWin` is a pointer, so
appending it before `loadFilePath` runs or after gives the same list. -/
def loadPath (env : Env) (W : World) (path : String) : World :=
  if path = "" then
    let mainWin := newMainWindow env W.nextHandle W.settings W.events
    { W with
      windows := W.windows ++ [mainWin.win]
      settings := mainWin.settings
      events := mainWin.events ++ [UiEvent.showWindow mainWin.win.handle]
      nextHandle := W.nextHandle + 1 }
  else
    match W.windows.find? (fun win => win.filePath == path) with
    | some win =>
      { W with events := W.events ++
          [UiEvent.activateWindow win.handle, UiEvent.raise win.handle] }
    | none =>
      let mainWin := newMainWindow env W.nextHandle W.settings W.events
      let shown := { mainWin with
        events := mainWin.events ++ [UiEvent.showWindow mainWin.win.handle] }
      let loaded := loadFilePath env shown path
      { W with
        windows := W.windows ++ [loaded.win]
        settings := loaded.settings
        events := loaded.events
        nextHandle := W.nextHandle + 1 }

/-- `Application::loadPaths` (application.cpp 42-52). -/
def loadPaths (env : Env) (W : World) (paths : List String) : World :=
  if paths.isEmpty then loadPath env W ""
  else paths.foldl (loadPath env) W

/-- `Application::removeWindowFromList` (application.cpp 22-25): `removeOne`
drops the first entry equal to the pointer, if there is one. -/
def removeWindowFromList (W : World) (w : Nat) : World :=
  { W with windows := W.windows.eraseP (fun win => win.handle == w) }

/-- The window at position `i` of the registry receives a close request
(`QWidget::close`): its `closeEvent` runs, and when the event is accepted the
window is closed. Nothing else happens to the registry, because `closeEvent`
does not reach the `Application`. -/
def closeRequest (env : Env) (W : World) (i : Nat) (risp : StandardButton)
    (chosen : String) : Bool × World :=
  match W.windows[i]? with
  | none => (false, W)
  | some w =>
    let r := closeEvent env { win := w, settings := W.settings, events := W.events } risp chosen
    (r.1, { W with
      windows := W.windows.set i r.2.win
      settings := r.2.settings
      events := r.2.events
      closed := if r.1 then W.closed ++ [w.handle] else W.closed })

/-- No two entries of the registry have the same non-empty path. -/
def OnePathPerWindow (ws : List MainWindow) : Prop :=
  ws.Pairwise (fun a b => a.filePath ≠ "" → a.filePath ≠ b.filePath)

/-- The states the registry operations produce from a registry without windows. -/
inductive Reachable (env : Env) : World → Prop where
  | start (W : World) : W.windows = [] → Reachable env W
  | loadPath (W : World) (path : String) : Reachable env W → Reachable env (loadPath env W path)
  | loadPaths (W : World) (paths : List String) :
      Reachable env W → Reachable env (loadPaths env W paths)
  | removeWindowFromList (W : World) (w : Nat) :
      Reachable env W → Reachable env (removeWindowFromList W w)

/-- A file system in which every path is its own canonical form and no document has a title. -/
def Env.plain : Env :=
  { canonicalFilePath := fun p => p, fileName := fun p => p, baseName := fun p => p,
    documentTitle := fun _ => "" }

/-- A file system that resolves every path to `/home/user/a.pdf`. -/
def Env.resolving : Env :=
  { Env.plain with canonicalFilePath := fun _ => "/home/user/a.pdf" }

/-- An untitled, unmodified window with the given handle, geometry and state. -/
def MainWindow.untitled (handle : Nat) (geometry state : QByteArray) : MainWindow :=
  { handle := handle, filePath := "", zoomRange := 0, canBeReloaded := true,
    windowModified := false, windowFilePath := "untitled", windowTitle := "",
    geometry := geometry, state := state }

/-- The path the specification expects a window to hold after
`setCurrentFilePath(p)` with `p` not empty: the canonical form of `p`, or `p`
itself when the canonical form is empty (as it is for a file that does not exist). -/
def canonicalOrRaw (env : Env) (p : String) : String :=
  if env.canonicalFilePath p = "" then p else env.canonicalFilePath p

/-- A registry with one untitled window that has unsaved changes. -/
def World.oneModified : World :=
  { windows := [{ MainWindow.untitled 0 [1] [2] with windowModified := true }],
    settings := QSettings.empty, events := [], nextHandle := 1, closed := [] }

/-- An untitled window with geometry `1, 2, 3` and state `4, 5, 6` on a first run. -/
def Ctx.firstRun : Ctx :=
  { win := MainWindow.untitled 0 [1, 2, 3] [4, 5, 6], settings := QSettings.empty,
    events := [] }

/-! ## File actions of a window -/

/-- `MainWindow::openFile` (mainwindow.cpp 394-406); `chosen` is what
`QFileDialog::getOpenFileName` returns (empty when the dialog is cancelled). The
call of `loadPath` for a window that already has a file is commented out in the
source, so that case does nothing. -/
def openFile (env : Env) (c : Ctx) (chosen : String) : Ctx :=
  if chosen = "" then c
  else if c.win.filePath = "" ∧ c.win.windowModified = false then loadFilePath env c chosen
  else c

/-- `MainWindow::recentFileTriggered` (mainwindow.cpp 545-554); `path` is the text
of the menu entry that was triggered. -/
def recentFileTriggered (env : Env) (c : Ctx) (path : String) : Ctx :=
  if c.win.filePath = "" then loadFilePath env c path
  else c

/-- A slot `f` of the window at position `i` of the registry runs: it works on that
window, the settings and the event trace, and on nothing else. -/
def onWindow (W : World) (i : Nat) (f : Ctx → Ctx) : World :=
  match W.windows[i]? with
  | none => W
  | some w =>
    let c := f { win := w, settings := W.settings, events := W.events }
    { W with
      windows := W.windows.set i c.win
      settings := c.settings
      events := c.events }

/-- The states that the registry operations and the file actions of the windows in
the registry produce from a registry without windows. The Recent Files menu offers
the entries of the stored list only. -/
inductive ReachableByActions (env : Env) : World → Prop where
  | start (W : World) : W.windows = [] → ReachableByActions env W
  | loadPath (W : World) (path : String) :
      ReachableByActions env W → ReachableByActions env (loadPath env W path)
  | loadPaths (W : World) (paths : List String) :
      ReachableByActions env W → ReachableByActions env (loadPaths env W paths)
  | removeWindowFromList (W : World) (w : Nat) :
      ReachableByActions env W → ReachableByActions env (removeWindowFromList W w)
  | openFile (W : World) (i : Nat) (chosen : String) :
      ReachableByActions env W →
      ReachableByActions env (onWindow W i (fun c => openFile env c chosen))
  | recentFileTriggered (W : World) (i : Nat) (path : String) :
      ReachableByActions env W → path ∈ recentFiles W.settings →
      ReachableByActions env (onWindow W i (fun c => recentFileTriggered env c path))
  | saveFile (W : World) (i : Nat) (chosen : String) :
      ReachableByActions env W →
      ReachableByActions env (onWindow W i (fun c => saveFile env c chosen))
  | saveFileAs (W : World) (i : Nat) (chosen : String) :
      ReachableByActions env W →
      ReachableByActions env (onWindow W i (fun c => saveFileAs env c chosen))

/-- The registry after `loadPaths` of no path (one untitled window, position 0)
followed by `loadPath` of `a.pdf` (a second window, position 1), on a first run. -/
def World.untitledAndPdf : World :=
  loadPath Env.plain (loadPaths Env.plain (World.start QSettings.empty) []) "a.pdf"

/-! ## Recent files: lemmas -/

theorem recentFiles_setValue (s : QSettings) (l : List String) :
    recentFiles (s.setValue "recentFiles" (QVariant.stringList l)) = l := by
  simp [recentFiles, QSettings.setValue, QSettings.value, QVariant.toStringList]

theorem recentFiles_addPath (s : QSettings) (p : String) :
    recentFiles (addPathToRecentFiles s p) = touch (recentFiles s) p := by
  simp [addPathToRecentFiles, recentFiles_setValue]

theorem touch_nodup (l : List String) (p : String) (h : l.Nodup) : (touch l p).Nodup := by
  have hcons : (p :: l.erase p).Nodup := by
    refine List.nodup_cons.mpr ⟨?_, h.erase p⟩
    intro hmem
    exact ((h.mem_erase_iff).mp hmem).1 rfl
  unfold touch
  dsimp only
  split
  · exact hcons.sublist (List.dropLast_sublist _)
  · exact hcons

theorem touch_length (l : List String) (p : String) (h : l.length ≤ 10) :
    (touch l p).length ≤ 10 := by
  unfold touch
  dsimp only
  split
  · have := List.length_erase_le p l
    simp only [List.length_dropLast, List.length_cons]
    omega
  · omega

theorem touch_head (l : List String) (p : String) : (touch l p).head? = some p := by
  unfold touch
  dsimp only
  split
  · rename_i hlt
    cases hx : l.erase p with
    | nil => simp [hx] at hlt
    | cons a t => simp [List.dropLast]
  · rfl

theorem touch_eq_take (l : List String) (p : String) (h : l.length ≤ 10) :
    touch l p = (p :: l.erase p).take 10 := by
  have hle := List.length_erase_le p l
  unfold touch
  dsimp only
  split
  · rw [List.dropLast_eq_take]
    congr 1
    simp only [List.length_cons] at *
    omega
  · rw [List.take_of_length_le]
    omega

theorem take_erase_take (p : String) (l : List String) (n : Nat) :
    ((l.take (n + 1)).erase p).take n = (l.erase p).take n := by
  induction l generalizing n with
  | nil => simp
  | cons a t ih =>
    by_cases hap : a = p
    · subst hap
      simp [List.take_take]
    · cases n with
      | zero => simp
      | succ m =>
        have h1 : (a == p) = false := by simpa using hap
        simp only [List.take_succ_cons, List.erase_cons, h1, Bool.false_eq_true, if_false]
        rw [ih]

theorem dedup_append_singleton (l : List String) (p : String) :
    (l ++ [p]).dedup = (l.dedup).filter (fun q => decide (q ≠ p)) ++ [p] := by
  induction l with
  | nil => simp
  | cons a t ih =>
    by_cases hap : a = p
    · subst hap
      have hmem : a ∈ t ++ [a] := by simp
      rw [List.cons_append, List.dedup_cons_of_mem hmem, ih]
      by_cases hat : a ∈ t
      · rw [List.dedup_cons_of_mem hat]
      · rw [List.dedup_cons_of_not_mem hat]
        simp
    · by_cases hat : a ∈ t
      · have hmem : a ∈ t ++ [p] := by simp [hat]
        rw [List.cons_append, List.dedup_cons_of_mem hmem, ih, List.dedup_cons_of_mem hat]
      · have hmem : a ∉ t ++ [p] := by simp [hat, hap]
        rw [List.cons_append, List.dedup_cons_of_not_mem hmem, ih, List.dedup_cons_of_not_mem hat]
        simp [hap]

theorem distinctByLastTouch_snoc (l : List String) (p : String) :
    distinctByLastTouch (l ++ [p]) = p :: (distinctByLastTouch l).erase p := by
  have hnd : (distinctByLastTouch l).Nodup := by
    unfold distinctByLastTouch
    exact List.nodup_reverse.mpr (List.nodup_dedup l)
  rw [hnd.erase_eq_filter]
  unfold distinctByLastTouch
  rw [dedup_append_singleton]
  simp only [List.reverse_append, List.reverse_cons, List.reverse_nil, List.nil_append,
    List.singleton_append, List.filter_reverse, List.cons.injEq, true_and]
  congr 1
  refine List.filter_congr ?_
  intro x _
  by_cases hx : x = p <;> simp [bne, hx]

theorem recentFiles_touchAll (s : QSettings) (hs : recentFiles s = []) (paths : List String) :
    recentFiles (touchAll s paths) = (distinctByLastTouch paths).take 10 := by
  induction paths using List.reverseRecOn with
  | nil => simp [touchAll, hs, distinctByLastTouch]
  | append_singleton ps p ih =>
    have hstep : touchAll s (ps ++ [p]) = addPathToRecentFiles (touchAll s ps) p := by
      simp [touchAll, List.foldl_append]
    rw [hstep, recentFiles_addPath, ih, distinctByLastTouch_snoc]
    rw [touch_eq_take _ _ (by simp [List.length_take])]
    simp only [List.take_succ_cons]
    rw [take_erase_take]


theorem touch_touch (l : List String) (p : String) (hlen : l.length ≤ 10) :
    touch (touch l p) p = touch l p := by
  have h10 := touch_length l p hlen
  have hhead := touch_head l p
  cases hx : touch l p with
  | nil => simp [hx] at hhead
  | cons a t =>
    rw [hx] at hhead h10
    simp only [List.head?_cons, Option.some.injEq] at hhead
    subst hhead
    simp only [List.length_cons] at h10
    have hnot : ¬ (t.length + 1 > 10) := by omega
    simp [touch, hnot]

theorem touchAll_snoc (s : QSettings) (ps : List String) (p : String) :
    touchAll s (ps ++ [p]) = addPathToRecentFiles (touchAll s ps) p := by
  simp [touchAll, List.foldl_append]

/-! ## Recent files: the claims -/

/-- C1: `addPathToRecentFiles` maps a stored list without duplicates and of length at
most 10, and any path `p`, to a list without duplicates, of length at most 10 and
with `p` at its head; and after any sequence of calls that starts from an empty
stored list the stored list has no duplicates, has length at most 10 and starts
with the path touched last. -/
theorem addPathToRecentFiles_invariant (s : QSettings) (p : String)
    (hnd : (recentFiles s).Nodup) (hlen : (recentFiles s).length ≤ 10) :
    ((recentFiles (addPathToRecentFiles s p)).Nodup ∧
      (recentFiles (addPathToRecentFiles s p)).length ≤ 10 ∧
      (recentFiles (addPathToRecentFiles s p)).head? = some p) ∧
    (∀ (s0 : QSettings) (paths : List String), recentFiles s0 = [] →
      (recentFiles (touchAll s0 paths)).Nodup ∧
      (recentFiles (touchAll s0 paths)).length ≤ 10 ∧
      (∀ q, paths.getLast? = some q → (recentFiles (touchAll s0 paths)).head? = some q)) := by
  refine ⟨?_, ?_⟩
  · rw [recentFiles_addPath]
    exact ⟨touch_nodup _ _ hnd, touch_length _ _ hlen, touch_head _ _⟩
  · intro s0 paths hs0
    induction paths using List.reverseRecOn with
    | nil => simp [touchAll, hs0]
    | append_singleton ps q ih =>
      rw [touchAll_snoc, recentFiles_addPath]
      refine ⟨touch_nodup _ _ ih.1, touch_length _ _ ih.2.1, ?_⟩
      intro r hr
      rw [List.getLast?_concat] at hr
      cases hr
      exact touch_head _ _

/-- C1, on a full list: touching an eleventh path keeps ten distinct entries. -/
theorem addPathToRecentFiles_invariant_witness :
    (recentFiles (touchAll QSettings.empty
      ["1", "2", "3", "4", "5", "6", "7", "8", "9", "10"])).Nodup ∧
    (recentFiles (touchAll QSettings.empty
      ["1", "2", "3", "4", "5", "6", "7", "8", "9", "10"])).length ≤ 10 ∧
    ((recentFiles (addPathToRecentFiles (touchAll QSettings.empty
        ["1", "2", "3", "4", "5", "6", "7", "8", "9", "10"]) "11")).Nodup ∧
      (recentFiles (addPathToRecentFiles (touchAll QSettings.empty
        ["1", "2", "3", "4", "5", "6", "7", "8", "9", "10"]) "11")).length ≤ 10 ∧
      (recentFiles (addPathToRecentFiles (touchAll QSettings.empty
        ["1", "2", "3", "4", "5", "6", "7", "8", "9", "10"]) "11")).head? = some "11") :=
  ⟨by decide, by decide,
    (addPathToRecentFiles_invariant
      (touchAll QSettings.empty ["1", "2", "3", "4", "5", "6", "7", "8", "9", "10"]) "11"
      (by decide) (by decide)).1⟩

/-- C2: after any sequence of `addPathToRecentFiles` calls that starts from an empty
stored list, the stored list is the first 10 of the distinct touched paths ordered by
last touch, most recent first; for 11 pairwise distinct paths `p1 .. p11` it is
`[p11, p10, .., p2]`. -/
theorem touchAll_eq_distinctByLastTouch (s : QSettings) (hs : recentFiles s = [])
    (paths : List String) :
    recentFiles (touchAll s paths) = (distinctByLastTouch paths).take 10 ∧
    (∀ p1 p2 p3 p4 p5 p6 p7 p8 p9 p10 p11 : String,
      [p1, p2, p3, p4, p5, p6, p7, p8, p9, p10, p11].Nodup →
      recentFiles (touchAll s [p1, p2, p3, p4, p5, p6, p7, p8, p9, p10, p11])
        = [p11, p10, p9, p8, p7, p6, p5, p4, p3, p2]) := by
  refine ⟨recentFiles_touchAll s hs paths, ?_⟩
  intro p1 p2 p3 p4 p5 p6 p7 p8 p9 p10 p11 hnd
  rw [recentFiles_touchAll s hs, distinctByLastTouch, hnd.dedup]
  rfl

/-- C2, on a first run with a path touched twice. -/
theorem touchAll_eq_distinctByLastTouch_witness :
    recentFiles QSettings.empty = [] ∧
    recentFiles (touchAll QSettings.empty ["a", "b", "a", "c"]) = ["c", "a", "b"] := by
  refine ⟨by decide, ?_⟩
  rw [(touchAll_eq_distinctByLastTouch QSettings.empty (by decide) ["a", "b", "a", "c"]).1]
  decide

/-- C3: on a stored list without duplicates and of length at most 10,
`addPathToRecentFiles p` twice leaves the store exactly as one call does, with `p`
at the front of the list. -/
theorem addPathToRecentFiles_twice (s : QSettings) (p : String)
    (hnd : (recentFiles s).Nodup) (hlen : (recentFiles s).length ≤ 10) :
    addPathToRecentFiles (addPathToRecentFiles s p) p = addPathToRecentFiles s p ∧
    recentFiles (addPathToRecentFiles (addPathToRecentFiles s p) p)
      = recentFiles (addPathToRecentFiles s p) ∧
    (recentFiles (addPathToRecentFiles (addPathToRecentFiles s p) p)).head? = some p := by
  have _ := hnd
  have hstore : addPathToRecentFiles (addPathToRecentFiles s p) p
      = addPathToRecentFiles s p := by
    funext k
    have h2 := recentFiles_addPath s p
    simp only [addPathToRecentFiles] at h2 ⊢
    rw [h2, touch_touch _ _ hlen]
    by_cases hk : k = "recentFiles" <;> simp [QSettings.setValue, hk]
  refine ⟨hstore, by rw [hstore], ?_⟩
  rw [recentFiles_addPath]
  exact touch_head _ _

/-- C3, on the list `b, a`: touching `a` twice gives `a, b` as touching it once does. -/
theorem addPathToRecentFiles_twice_witness :
    (recentFiles (touchAll QSettings.empty ["a", "b"])).Nodup ∧
    (recentFiles (touchAll QSettings.empty ["a", "b"])).length ≤ 10 ∧
    recentFiles (addPathToRecentFiles
      (addPathToRecentFiles (touchAll QSettings.empty ["a", "b"]) "a") "a")
      = recentFiles (addPathToRecentFiles (touchAll QSettings.empty ["a", "b"]) "a") :=
  ⟨by decide, by decide,
    (addPathToRecentFiles_twice (touchAll QSettings.empty ["a", "b"]) "a"
      (by decide) (by decide)).2.1⟩

/-! ## Windows and registry: lemmas -/

theorem setCurrentFilePath_filePath (env : Env) (c : Ctx) (path : String) :
    (setCurrentFilePath env c path).win.filePath = path := by
  unfold setCurrentFilePath
  split
  · rename_i h
    simp [h]
  · rfl

theorem setCurrentFilePath_empty (env : Env) (c : Ctx) :
    setCurrentFilePath env c "" =
      { c with win := { c.win with
          filePath := "", windowModified := false, windowFilePath := "untitled" } } := by
  simp [setCurrentFilePath]

theorem newMainWindow_eq (env : Env) (h : Nat) (s : QSettings) (ev : List UiEvent) :
    newMainWindow env h s ev =
      { win :=
          { handle := h, filePath := "", zoomRange := 0, canBeReloaded := true,
            windowModified := false, windowFilePath := "untitled", windowTitle := "",
            geometry := (s.value "geometry").toByteArray,
            state := (s.value "myWidget/windowState").toByteArray }
        settings := s
        events := ev } := by
  simp [newMainWindow, setCurrentFilePath_empty]

theorem loadFilePath_filePath (env : Env) (c : Ctx) (path : String) :
    (loadFilePath env c path).win.filePath = path := by
  simp [loadFilePath, setCurrentFilePath_filePath]

theorem onePathPerWindow_append (ws : List MainWindow) (w : MainWindow)
    (h : OnePathPerWindow ws) (hnew : ∀ a ∈ ws, a.filePath ≠ "" → a.filePath ≠ w.filePath) :
    OnePathPerWindow (ws ++ [w]) := by
  unfold OnePathPerWindow at *
  rw [List.pairwise_append]
  refine ⟨h, List.pairwise_singleton _ _, ?_⟩
  intro a ha b hb
  rw [List.mem_singleton] at hb
  subst hb
  exact hnew a ha

theorem loadPath_onePathPerWindow (env : Env) (W : World) (path : String)
    (h : OnePathPerWindow W.windows) : OnePathPerWindow (loadPath env W path).windows := by
  unfold loadPath
  split
  · refine onePathPerWindow_append _ _ h ?_
    intro a _ hne
    rw [newMainWindow_eq]
    exact hne
  · rename_i hp
    split
    · exact h
    · rename_i hnone
      refine onePathPerWindow_append _ _ h ?_
      intro a ha _
      rw [loadFilePath_filePath]
      have := List.find?_eq_none.mp hnone a ha
      simpa using this

theorem foldl_loadPath_onePathPerWindow (env : Env) (paths : List String) (W : World)
    (h : OnePathPerWindow W.windows) :
    OnePathPerWindow (paths.foldl (loadPath env) W).windows := by
  induction paths generalizing W with
  | nil => exact h
  | cons p ps ih => exact ih _ (loadPath_onePathPerWindow env W p h)

theorem loadPaths_onePathPerWindow (env : Env) (W : World) (paths : List String)
    (h : OnePathPerWindow W.windows) : OnePathPerWindow (loadPaths env W paths).windows := by
  unfold loadPaths
  split
  · exact loadPath_onePathPerWindow env W "" h
  · exact foldl_loadPath_onePathPerWindow env paths W h

theorem removeWindowFromList_onePathPerWindow (W : World) (w : Nat)
    (h : OnePathPerWindow W.windows) : OnePathPerWindow (removeWindowFromList W w).windows := by
  unfold OnePathPerWindow at *
  exact h.sublist (List.eraseP_sublist _)

/-! ## Windows and registry: the claims -/

/-- C4: in every state that `loadPath`, `loadPaths` and `removeWindowFromList` produce
from a registry without windows, no two windows of the registry have the same
non-empty path. -/
theorem reachable_onePathPerWindow (env : Env) (W : World) (h : Reachable env W) :
    OnePathPerWindow W.windows := by
  induction h with
  | start W h0 => rw [h0]; exact List.Pairwise.nil
  | loadPath W path _ ih => exact loadPath_onePathPerWindow env W path ih
  | loadPaths W paths _ ih => exact loadPaths_onePathPerWindow env W paths ih
  | removeWindowFromList W w _ ih => exact removeWindowFromList_onePathPerWindow W w ih

/-- C4, on the registry after `loadPaths` of `a.pdf`, `b.pdf`, `a.pdf`. -/
theorem reachable_onePathPerWindow_witness :
    Reachable Env.plain
      (loadPaths Env.plain (World.start QSettings.empty) ["a.pdf", "b.pdf", "a.pdf"]) ∧
    OnePathPerWindow
      (loadPaths Env.plain (World.start QSettings.empty) ["a.pdf", "b.pdf", "a.pdf"]).windows :=
  ⟨Reachable.loadPaths _ _ (Reachable.start _ rfl),
    reachable_onePathPerWindow Env.plain _
      (Reachable.loadPaths _ _ (Reachable.start _ rfl))⟩

/-- C5: when `p` is not empty and some window of the registry has path `p`,
`loadPath p` leaves the window list, every window and the settings (the recent
files with them) as they are, and activates and raises one window: the first in
registry order whose path is `p`. -/
theorem loadPath_existing (env : Env) (W : World) (p : String) (hp : p ≠ "")
    (hex : ∃ w ∈ W.windows, w.filePath = p) :
    ∃ (w : MainWindow) (before after : List MainWindow),
      W.windows = before ++ w :: after ∧ w.filePath = p ∧
      (∀ a ∈ before, a.filePath ≠ p) ∧
      (loadPath env W p).windows = W.windows ∧
      (loadPath env W p).settings = W.settings ∧
      recentFiles (loadPath env W p).settings = recentFiles W.settings ∧
      (loadPath env W p).events =
        W.events ++ [UiEvent.activateWindow w.handle, UiEvent.raise w.handle] := by
  obtain ⟨w0, hw0, hw0p⟩ := hex
  cases hfind : W.windows.find? (fun win => win.filePath == p) with
  | none =>
    have := List.find?_eq_none.mp hfind w0 hw0
    simp [hw0p] at this
  | some w =>
    obtain ⟨hpw, before, after, hsplit, hbefore⟩ := List.find?_eq_some.mp hfind
    refine ⟨w, before, after, hsplit, by simpa using hpw, ?_, ?_⟩
    · intro a ha
      have := hbefore a ha
      simpa using this
    · simp [loadPath, hp, hfind]

/-- C5, on a registry holding `a.pdf` and `b.pdf`: opening `b.pdf` again. -/
theorem loadPath_existing_witness :
    ∃ (w : MainWindow) (before after : List MainWindow),
      (loadPaths Env.plain (World.start QSettings.empty) ["a.pdf", "b.pdf"]).windows
        = before ++ w :: after ∧ w.filePath = "b.pdf" ∧
      (∀ a ∈ before, a.filePath ≠ "b.pdf") ∧
      (loadPath Env.plain
          (loadPaths Env.plain (World.start QSettings.empty) ["a.pdf", "b.pdf"]) "b.pdf").windows
        = (loadPaths Env.plain (World.start QSettings.empty) ["a.pdf", "b.pdf"]).windows ∧
      (loadPath Env.plain
          (loadPaths Env.plain (World.start QSettings.empty) ["a.pdf", "b.pdf"]) "b.pdf").settings
        = (loadPaths Env.plain (World.start QSettings.empty) ["a.pdf", "b.pdf"]).settings ∧
      recentFiles (loadPath Env.plain
          (loadPaths Env.plain (World.start QSettings.empty) ["a.pdf", "b.pdf"]) "b.pdf").settings
        = recentFiles
            (loadPaths Env.plain (World.start QSettings.empty) ["a.pdf", "b.pdf"]).settings ∧
      (loadPath Env.plain
          (loadPaths Env.plain (World.start QSettings.empty) ["a.pdf", "b.pdf"]) "b.pdf").events
        = (loadPaths Env.plain (World.start QSettings.empty) ["a.pdf", "b.pdf"]).events ++
            [UiEvent.activateWindow w.handle, UiEvent.raise w.handle] :=
  loadPath_existing Env.plain
    (loadPaths Env.plain (World.start QSettings.empty) ["a.pdf", "b.pdf"]) "b.pdf"
    (by decide)
    ⟨(loadFilePath Env.plain (newMainWindow Env.plain 1 QSettings.empty []) "b.pdf").win,
      by decide, by decide⟩

/-- C6: `loadPath ""` and `loadPaths` of no path are the same step; it appends one
new window with an empty path to the registry, whatever windows are there already,
leaves the settings alone, and the only event is the `show()` of the new window, so
no window is activated or raised. -/
theorem loadPath_empty (env : Env) (W : World) :
    loadPaths env W [] = loadPath env W "" ∧
    ∃ w : MainWindow,
      (loadPath env W "").windows = W.windows ++ [w] ∧
      (loadPath env W "").windows.length = W.windows.length + 1 ∧
      w.filePath = "" ∧ w.handle = W.nextHandle ∧ w.windowModified = false ∧
      (loadPath env W "").events = W.events ++ [UiEvent.showWindow w.handle] ∧
      (loadPath env W "").settings = W.settings := by
  refine ⟨by simp [loadPaths], (newMainWindow env W.nextHandle W.settings W.events).win, ?_⟩
  simp [loadPath, newMainWindow_eq]

/-! ## Closing a window: lemmas -/

theorem set_of_getElem? (l : List MainWindow) (i : Nat) (w : MainWindow)
    (h : l[i]? = some w) : l.set i w = l := by
  induction l generalizing i with
  | nil => simp
  | cons a t ih =>
    cases i with
    | zero =>
      simp only [List.getElem?_cons_zero, Option.some.injEq] at h
      simp [h]
    | succ j =>
      simp only [List.getElem?_cons_succ] at h
      simp [ih j h]

theorem exitAfterSaving_unmodified (env : Env) (c : Ctx) (risp : StandardButton)
    (chosen : String) (h : c.win.windowModified = false) :
    exitAfterSaving env c risp chosen = (true, c) := by
  simp [exitAfterSaving, h]

theorem exitAfterSaving_cancel (env : Env) (c : Ctx) (chosen : String)
    (h : c.win.windowModified = true) :
    exitAfterSaving env c StandardButton.Cancel chosen =
      (false, { c with events := c.events ++ [UiEvent.question c.win.handle] }) := by
  simp [exitAfterSaving, h]

theorem exitAfterSaving_false_iff (env : Env) (c : Ctx) (risp : StandardButton)
    (chosen : String) :
    (exitAfterSaving env c risp chosen).1 = false ↔
      (c.win.windowModified = true ∧ risp = StandardButton.Cancel) := by
  unfold exitAfterSaving
  cases hm : c.win.windowModified <;> cases risp <;> simp

theorem closeEvent_fst (env : Env) (c : Ctx) (risp : StandardButton) (chosen : String) :
    (closeEvent env c risp chosen).1 = (exitAfterSaving env c risp chosen).1 := by
  unfold closeEvent
  cases h : (exitAfterSaving env c risp chosen).1 <;> simp [h]

theorem closeEvent_cancel (env : Env) (c : Ctx) (chosen : String)
    (h : c.win.windowModified = true) :
    closeEvent env c StandardButton.Cancel chosen =
      (false, { c with events := c.events ++ [UiEvent.question c.win.handle] }) := by
  simp [closeEvent, exitAfterSaving_cancel env c chosen h]

theorem closeEvent_unmodified (env : Env) (c : Ctx) (risp : StandardButton)
    (chosen : String) (h : c.win.windowModified = false) :
    closeEvent env c risp chosen =
      (true,
        { c with
          settings :=
            QSettings.setValue
              (QSettings.setValue c.settings "geometry" (QVariant.byteArray c.win.geometry))
              "windowState" (QVariant.byteArray c.win.state) }) := by
  simp [closeEvent, exitAfterSaving_unmodified env c risp chosen h]

theorem setCurrentFilePath_handle (env : Env) (c : Ctx) (path : String) :
    (setCurrentFilePath env c path).win.handle = c.win.handle := by
  unfold setCurrentFilePath
  split <;> rfl

theorem closeEvent_handle (env : Env) (c : Ctx) (risp : StandardButton) (chosen : String) :
    (closeEvent env c risp chosen).2.win.handle = c.win.handle := by
  unfold closeEvent exitAfterSaving saveFile saveFileAs saveFilePath
  cases c.win.windowModified <;> cases risp <;>
    (simp only [Bool.false_eq_true, if_true, if_false]
     repeat split
     all_goals simp [setCurrentFilePath_handle])

theorem map_handle_set (l : List MainWindow) (i : Nat) (w v : MainWindow)
    (h : l[i]? = some w) (hv : v.handle = w.handle) :
    (l.set i v).map MainWindow.handle = l.map MainWindow.handle := by
  induction l generalizing i with
  | nil => simp
  | cons a t ih =>
    cases i with
    | zero =>
      simp only [List.getElem?_cons_zero, Option.some.injEq] at h
      simp [h, hv]
    | succ j =>
      simp only [List.getElem?_cons_succ] at h
      simp [ih j h]

theorem closeRequest_handles (env : Env) (W : World) (i : Nat) (risp : StandardButton)
    (chosen : String) :
    (closeRequest env W i risp chosen).2.windows.map MainWindow.handle
      = W.windows.map MainWindow.handle := by
  unfold closeRequest
  cases hw : W.windows[i]? with
  | none => rfl
  | some w =>
    exact map_handle_set W.windows i w _ hw (closeEvent_handle env _ risp chosen)

/-! ## Closing a window: the claims -/

/-- C7: evaluation of the close sequence on a registry with one untitled, unmodified
window: the close event is accepted and the window is closed, and the registry
still lists its handle. -/
theorem closeRequest_keeps_handle :
    (loadPath Env.plain (World.start QSettings.empty) "").windows.map MainWindow.handle = [0] ∧
    (closeRequest Env.plain (loadPath Env.plain (World.start QSettings.empty) "") 0
      StandardButton.No "").1 = true ∧
    (closeRequest Env.plain (loadPath Env.plain (World.start QSettings.empty) "") 0
      StandardButton.No "").2.closed = [0] ∧
    (closeRequest Env.plain (loadPath Env.plain (World.start QSettings.empty) "") 0
      StandardButton.No "").2.windows.map MainWindow.handle = [0] := by
  decide

/-- C8: a close request to a window of the registry is rejected exactly when the
window is modified and the answer is Cancel; an unmodified window is closed without
the question being asked; and a rejected request leaves the registry (its length
and every window, the modified flag of this one included), the settings and the
set of closed windows unchanged. -/
theorem closeRequest_rejected_iff (env : Env) (W : World) (i : Nat) (risp : StandardButton)
    (chosen : String) (w : MainWindow) (hw : W.windows[i]? = some w) :
    ((closeRequest env W i risp chosen).1 = false ↔
      (w.windowModified = true ∧ risp = StandardButton.Cancel)) ∧
    (w.windowModified = false →
      (closeRequest env W i risp chosen).1 = true ∧
      (closeRequest env W i risp chosen).2.events = W.events) ∧
    ((closeRequest env W i risp chosen).1 = false →
      (closeRequest env W i risp chosen).2.windows = W.windows ∧
      (closeRequest env W i risp chosen).2.windows.length = W.windows.length ∧
      (closeRequest env W i risp chosen).2.windows[i]? = some w ∧
      w.windowModified = true ∧
      (closeRequest env W i risp chosen).2.settings = W.settings ∧
      (closeRequest env W i risp chosen).2.closed = W.closed) := by
  have hiff : (closeRequest env W i risp chosen).1 = false ↔
      (w.windowModified = true ∧ risp = StandardButton.Cancel) := by
    simp only [closeRequest, hw, closeEvent_fst]
    exact exitAfterSaving_false_iff env _ risp chosen
  refine ⟨hiff, ?_, ?_⟩
  · intro hm
    simp [closeRequest, hw,
      closeEvent_unmodified env { win := w, settings := W.settings, events := W.events }
        risp chosen hm]
  · intro hrej
    obtain ⟨hm, hr⟩ := hiff.mp hrej
    subst hr
    simp [closeRequest, hw,
      closeEvent_cancel env { win := w, settings := W.settings, events := W.events }
        chosen hm, set_of_getElem? W.windows i w hw, hm]

/-- C8, on a registry with one modified window and the answer Cancel. -/
theorem closeRequest_rejected_iff_witness :
    World.oneModified.windows[0]? =
      some { MainWindow.untitled 0 [1] [2] with windowModified := true } ∧
    (closeRequest Env.plain World.oneModified 0 StandardButton.Cancel "").1 = false ∧
    (closeRequest Env.plain World.oneModified 0 StandardButton.Cancel "").2.windows
      = World.oneModified.windows ∧
    (closeRequest Env.plain World.oneModified 0 StandardButton.Cancel "").2.settings
      = World.oneModified.settings :=
  have h := closeRequest_rejected_iff Env.plain World.oneModified 0 StandardButton.Cancel ""
    { MainWindow.untitled 0 [1] [2] with windowModified := true } (by decide)
  have hrej := h.1.mpr ⟨by decide, rfl⟩
  ⟨by decide, hrej, (h.2.2 hrej).1, (h.2.2 hrej).2.2.2.2.1⟩

/-- C9: evaluation of an accepted close followed by the construction of the next
window, on a first run and a window with geometry `1, 2, 3` and state `4, 5, 6`:
the close writes the geometry under `geometry` and the state under `windowState`;
the constructor restores the geometry, but reads the state from
`myWidget/windowState`, which holds nothing, and restores an empty state. -/
theorem closeEvent_newMainWindow_state :
    (closeEvent Env.plain Ctx.firstRun StandardButton.No "").1 = true ∧
    (closeEvent Env.plain Ctx.firstRun StandardButton.No "").2.settings.value "geometry"
      = QVariant.byteArray [1, 2, 3] ∧
    (closeEvent Env.plain Ctx.firstRun StandardButton.No "").2.settings.value "windowState"
      = QVariant.byteArray [4, 5, 6] ∧
    (newMainWindow Env.plain 1
      (closeEvent Env.plain Ctx.firstRun StandardButton.No "").2.settings []).win.geometry
      = [1, 2, 3] ∧
    (newMainWindow Env.plain 1
      (closeEvent Env.plain Ctx.firstRun StandardButton.No "").2.settings []).win.state
      = [] := by
  decide

/-! ## The current path of a window -/

/-- C10 as stated fails: where `a.pdf` resolves to `/home/user/a.pdf`, the window
holds `a.pdf` after `setCurrentFilePath`, not the canonical form. -/
theorem setCurrentFilePath_not_canonical :
    ("a.pdf" ≠ "") ∧
    canonicalOrRaw Env.resolving "a.pdf" = "/home/user/a.pdf" ∧
    (setCurrentFilePath Env.resolving Ctx.firstRun "a.pdf").win.filePath
      ≠ canonicalOrRaw Env.resolving "a.pdf" := by
  decide

/-- C10, amended: for every non-empty path `p`, after `setCurrentFilePath(p)` the
path of the window is `p` as given, whatever its canonical form is; the canonical
form goes to the `windowFilePath` property only. -/
theorem setCurrentFilePath_raw (env : Env) (c : Ctx) (p : String) (hp : p ≠ "") :
    (setCurrentFilePath env c p).win.filePath = p ∧
    (setCurrentFilePath env c p).win.windowFilePath = env.canonicalFilePath p := by
  simp [setCurrentFilePath, hp]

/-- C10 amended, where `a.pdf` resolves to `/home/user/a.pdf`. -/
theorem setCurrentFilePath_raw_witness :
    ("a.pdf" ≠ "") ∧
    (setCurrentFilePath Env.resolving Ctx.firstRun "a.pdf").win.filePath = "a.pdf" ∧
    (setCurrentFilePath Env.resolving Ctx.firstRun "a.pdf").win.windowFilePath
      = Env.resolving.canonicalFilePath "a.pdf" :=
  ⟨by decide, setCurrentFilePath_raw Env.resolving Ctx.firstRun "a.pdf" (by decide)⟩

/-! ## The bookkeeping step and the file actions -/

/-- C11: for every window state and every path `p`, `setCurrentFilePath(p)`, and with
it `loadFilePath(p)` (whatever the document library answers) and `saveFilePath(p)`,
leaves the window unmodified; for an empty `p` the path becomes empty, the title
given to `setWindowFilePath` is `untitled` and the stored recent files stay as they
are; for any other `p` the stored recent files become `touch` of the previous list
and `p`. -/
theorem setCurrentFilePath_bookkeeping (env : Env) (c : Ctx) (p : String) :
    ((setCurrentFilePath env c p).win.windowModified = false ∧
      (if p = "" then
        (setCurrentFilePath env c p).win.filePath = "" ∧
        (setCurrentFilePath env c p).win.windowFilePath = "untitled" ∧
        recentFiles (setCurrentFilePath env c p).settings = recentFiles c.settings
      else
        recentFiles (setCurrentFilePath env c p).settings
          = touch (recentFiles c.settings) p)) ∧
    ((loadFilePath env c p).win.windowModified = false ∧
      (if p = "" then
        (loadFilePath env c p).win.filePath = "" ∧
        (loadFilePath env c p).win.windowFilePath = "untitled" ∧
        recentFiles (loadFilePath env c p).settings = recentFiles c.settings
      else
        recentFiles (loadFilePath env c p).settings = touch (recentFiles c.settings) p)) ∧
    ((saveFilePath env c p).win.windowModified = false ∧
      (if p = "" then
        (saveFilePath env c p).win.filePath = "" ∧
        (saveFilePath env c p).win.windowFilePath = "untitled" ∧
        recentFiles (saveFilePath env c p).settings = recentFiles c.settings
      else
        recentFiles (saveFilePath env c p).settings = touch (recentFiles c.settings) p)) := by
  by_cases hp : p = ""
  · subst hp
    simp [loadFilePath, saveFilePath, setCurrentFilePath]
  · simp [loadFilePath, saveFilePath, setCurrentFilePath, hp, recentFiles_addPath]

/-- C12: evaluation of the file actions on a registry with an untitled window and a
window that has `a.pdf`: the Open action of the untitled window with `a.pdf` chosen
is a reachable step, and so is its Recent Files action on the entry `a.pdf`; after
either, both windows of the registry have the path `a.pdf`. The same happens after
Save As with `notes` chosen next to a window that has `notes.txt`. -/
theorem openFile_duplicates_path :
    World.untitledAndPdf.windows.map MainWindow.filePath = ["", "a.pdf"] ∧
    OnePathPerWindow World.untitledAndPdf.windows ∧
    ReachableByActions Env.plain
      (onWindow World.untitledAndPdf 0 (fun c => openFile Env.plain c "a.pdf")) ∧
    (onWindow World.untitledAndPdf 0 (fun c => openFile Env.plain c "a.pdf")).windows.map
      MainWindow.filePath = ["a.pdf", "a.pdf"] ∧
    ¬ OnePathPerWindow
      (onWindow World.untitledAndPdf 0 (fun c => openFile Env.plain c "a.pdf")).windows ∧
    ReachableByActions Env.plain
      (onWindow World.untitledAndPdf 0 (fun c => recentFileTriggered Env.plain c "a.pdf")) ∧
    ¬ OnePathPerWindow
      (onWindow World.untitledAndPdf 0
        (fun c => recentFileTriggered Env.plain c "a.pdf")).windows ∧
    ¬ OnePathPerWindow
      (onWindow
        (loadPath Env.plain (loadPaths Env.plain (World.start QSettings.empty) []) "notes.txt")
        0 (fun c => saveFileAs Env.plain c "notes")).windows := by
  have hreach : ReachableByActions Env.plain World.untitledAndPdf :=
    ReachableByActions.loadPath _ _
      (ReachableByActions.loadPaths _ _ (ReachableByActions.start _ rfl))
  refine ⟨by decide, ?_, ReachableByActions.openFile _ 0 "a.pdf" hreach, by decide, ?_,
    ReachableByActions.recentFileTriggered _ 0 "a.pdf" hreach (by decide), ?_, ?_⟩
  all_goals unfold OnePathPerWindow
  all_goals decide

end CuteViewer
